import Mathlib

/-!
# Verification of the whack-a-mole control core (`src/whackamole.ino`)

Shallow embedding of the timed-event scheduler (bounded binary min-heap)
and the game state machine, translated function by function from the
Arduino C++ source.  Machine integers are modelled as `Nat` with explicit
`% 2^w` reductions at the points where the source's fixed-width arithmetic
can wrap (`uint8_t` heap size and indices, `uint16_t` mole numbers,
`uint32_t` millisecond timestamps).  External collaborators (`millis()`,
`random()`, `digitalRead`) are modelled as explicit parameters sampled
once per call into the core; `digitalWrite` on an LED pin is modelled as a
boolean per mole slot.
-/

namespace Whackamole

/-- `const uint32_t delay_time = 1000;` (ms). -/
def delay_time : Nat := 1000

/-- `const uint8_t mole_pop_prob = 80;` -/
def mole_pop_prob : Nat := 80

/-- `const uint32_t mole_expire_delay = 500;` (ms). -/
def mole_expire_delay : Nat := 500

/-- `const uint8_t num_moles = 4;` (four button/LED pairs on the Simon PCB). -/
def num_moles : Nat := 4

/-- `enum event_type { event_mole_can_pop, event_mole_expired };` -/
inductive EventType where
  | event_mole_can_pop
  | event_mole_expired
  deriving DecidableEq, Repr

/-- `struct event { uint32_t event_millis; enum event_type etype; uint16_t event_mole_number; };` -/
structure Event where
  event_millis : Nat
  etype : EventType
  event_mole_number : Nat
  deriving DecidableEq, Repr

/-- The all-zero `struct event`, the value every slot of the global
`event_heap` array holds at boot (C++ zero-initialises globals). -/
def zeroEvent : Event :=
  { event_millis := 0, etype := .event_mole_can_pop, event_mole_number := 0 }

/-- `inline struct event makeMoleCanPopEvent()` — fire time `millis() + delay_time`;
the third member is value-initialised to 0 by the aggregate initialiser. -/
def makeMoleCanPopEvent (now : Nat) : Event :=
  { event_millis := (now + delay_time) % 2 ^ 32
    etype := .event_mole_can_pop
    event_mole_number := 0 }

/-- `inline struct event makeMoleExpiresEvent()` — fire time
`millis() + mole_expire_delay`, carrying the current `next_mole_number`. -/
def makeMoleExpiresEvent (now next_mole_number : Nat) : Event :=
  { event_millis := (now + mole_expire_delay) % 2 ^ 32
    etype := .event_mole_expired
    event_mole_number := next_mole_number }

/-- `const uint8_t MAX_HEAP_SIZE = 20;` -/
def MAX_HEAP_SIZE : Nat := 20

/-- The heap state: the global array `struct event event_heap[MAX_HEAP_SIZE]`
(modelled as a total map from indices, so that the source's out-of-bounds
accesses become reads/writes at indices `≥ MAX_HEAP_SIZE` of the map) and
the global `uint8_t event_heap_size`. -/
structure Heap where
  arr : Nat → Event
  size : Nat

/-- `inline uint8_t heap_parent(uint8_t i) { return (i - 1) / 2; }` —
`i - 1` is computed after integer promotion to `int`, so for `i = 0` the
quotient `(-1)/2` truncates to `0`; `Nat` subtraction gives the same value. -/
def heap_parent (i : Nat) : Nat := (i - 1) / 2

/-- `inline uint8_t heap_left(uint8_t i) { return 2 * i + 1; }`
(the `uint8_t` return value truncates mod 256; every index evaluated in
this development stays far below 128, where `Nat` arithmetic coincides). -/
def heap_left (i : Nat) : Nat := 2 * i + 1

/-- `inline uint8_t heap_right(uint8_t i) { return 2 * i + 2; }` -/
def heap_right (i : Nat) : Nat := 2 * i + 2

/-- `inline void heap_clear() { event_heap_size = 0; }` -/
def heap_clear (h : Heap) : Heap := { h with size := 0 }

/-- The sift-up `while` loop of `heap_insert`:
`while (i > 0 && ev.event_millis < event_heap[parent].event_millis) { event_heap[i] = event_heap[parent]; i = parent; }`.
`parent` is computed once before the loop and never updated inside it, so
when the guard holds with `parent > 0` the loop reaches the fixed point
`i = parent` with the guard still true and never terminates; the fuel
returns `none` exactly in that case (any fuel `≥ 2` reaches the fixed
point, and the caller passes 256). -/
def siftLoop : Nat → Nat → Nat → (Nat → Event) → Event → Option (Nat × (Nat → Event))
  | 0, _, _, _, _ => none
  | fuel + 1, i, parent, arr, ev =>
    if 0 < i ∧ ev.event_millis < (arr parent).event_millis then
      siftLoop fuel parent parent (fun j => if j = i then arr parent else arr j) ev
    else
      some (i, arr)

/-- `void heap_insert(struct event ev)` — translated literally, including
the increment-before-use of `event_heap_size` (so the sift starts from
index `event_heap_size`, one past the newly occupied last slot) and the
stale `parent`.  `event_heap_size++` wraps as `uint8_t`.  Returns `none`
when the source's sift loop does not terminate. -/
def heap_insert (ev : Event) (h : Heap) : Option Heap :=
  let size := (h.size + 1) % 256
  let i := size
  let parent := heap_parent i
  match siftLoop 256 i parent h.arr ev with
  | none => none
  | some (i', arr') => some { arr := fun j => if j = i' then ev else arr' j, size := size }

/-- The body of `void heapify(uint8_t i)` with explicit fuel.  Each
recursive call moves to `largest ∈ {2i+1, 2i+2}` with `largest < size`,
so the recursion depth from index `i` is bounded by `size - i`; the
caller passes `size` as fuel, which therefore never runs out. -/
def heapifyF : Nat → Nat → (Nat → Event) → Nat → (Nat → Event)
  | 0, _, arr, _ => arr
  | fuel + 1, size, arr, i =>
    let l := heap_left i
    let r := heap_right i
    let largest1 := if l < size ∧ (arr l).event_millis < (arr i).event_millis then l else i
    let largest := if r < size ∧ (arr r).event_millis < (arr largest1).event_millis then r else largest1
    if largest = i then arr
    else
      heapifyF fuel size
        (fun j => if j = largest then arr i else if j = i then arr largest else arr j) largest

/-- `void heapify(uint8_t i)` — sift-down against the global
`event_heap_size`, which the model passes explicitly. -/
def heapify (size : Nat) (arr : Nat → Event) (i : Nat) : Nat → Event :=
  heapifyF size size arr i

/-- `struct event heap_extract_min()` — copies the root, moves
`event_heap[event_heap_size - 1]` to the root, decrements the `uint8_t`
size (wrapping: on an empty heap the size becomes 255, and the moved-from
index `event_heap_size - 1` is the out-of-bounds `-1`, modelled as the
`Nat` value 0), then `heapify(0)`. -/
def heap_extract_min (h : Heap) : Event × Heap :=
  let imin := h.arr 0
  let arr1 := fun j => if j = 0 then h.arr (h.size - 1) else h.arr j
  let size1 := (h.size + 255) % 256
  (imin, { arr := heapify size1 arr1 0, size := size1 })

/-- `enum program_state { state_stopped, state_running, state_won, state_lost };` -/
inductive ProgramState where
  | state_stopped
  | state_running
  | state_won
  | state_lost
  deriving DecidableEq, Repr

/-- The mutable globals of the sketch gathered into one record:
`mole_state[]` (the per-slot `uint16_t mole_number`), the commanded LED
level per slot (`digitalWrite(moles[i].led, ...)`), `next_mole_number`,
the `state` enum, and the event heap. -/
structure Machine where
  mole_state : Nat → Nat
  led : Nat → Bool
  next_mole_number : Nat
  state : ProgramState
  heap : Heap

/-- The machine at boot: globals zero-initialised, `next_mole_number = 1`,
`state = state_stopped`, LEDs unlit. -/
def initialMachine : Machine :=
  { mole_state := fun _ => 0
    led := fun _ => false
    next_mole_number := 1
    state := .state_stopped
    heap := { arr := fun _ => zeroEvent, size := 0 } }

/-- `bool anyButtonPressed()` — ORs `digitalRead` over the four mole buttons. -/
def anyButtonPressed (buttons : Nat → Bool) : Bool :=
  buttons 0 || buttons 1 || buttons 2 || buttons 3

/-- `void startANewGame()` — `heap_clear`, `heap_insert(makeMoleCanPopEvent())`,
then zero every `mole_state[i].mole_number` and drive every LED LOW, then
`state = state_running`.  It does NOT touch `next_mole_number`.  `none`
when the insert's sift loop diverges (it cannot here, see
`startANewGame_total`). -/
def startANewGame (now : Nat) (m : Machine) : Option Machine :=
  match heap_insert (makeMoleCanPopEvent now) (heap_clear m.heap) with
  | none => none
  | some h =>
    some { m with
      heap := h
      mole_state := fun i => if i < num_moles then 0 else m.mole_state i
      led := fun i => if i < num_moles then false else m.led i
      state := .state_running }

/-- `void maybeStartANewGame()`. -/
def maybeStartANewGame (buttons : Nat → Bool) (now : Nat) (m : Machine) : Option Machine :=
  if anyButtonPressed buttons then startANewGame now m else some m

/-- `void handleMoleCanPop()` — `roll` is the sampled `random(100)` and
`mole` the sampled `random(num_moles)`.  When `roll ≥ mole_pop_prob` the
function returns at once: in that branch NO event of any kind is
inserted (in particular no re-arm `MolePop`).  Otherwise it occupies the
chosen slot with `next_mole_number`, lights its LED, inserts the expire
event then the next can-pop event, and finally increments
`next_mole_number` (a `uint16_t`, wrapping mod 2^16). -/
def handleMoleCanPop (now roll mole : Nat) (m : Machine) : Option Machine :=
  if mole_pop_prob ≤ roll then some m
  else
    let m1 := { m with
      mole_state := fun i => if i = mole then m.next_mole_number else m.mole_state i
      led := fun i => if i = mole then true else m.led i }
    match heap_insert (makeMoleExpiresEvent now m.next_mole_number) m1.heap with
    | none => none
    | some h2 =>
      match heap_insert (makeMoleCanPopEvent now) h2 with
      | none => none
      | some h3 =>
        some { m1 with heap := h3, next_mole_number := (m.next_mole_number + 1) % 2 ^ 16 }

/-- `void handleMoleExpired() { state = state_lost; }` — unconditional. -/
def handleMoleExpired (m : Machine) : Machine :=
  { m with state := .state_lost }

/-- The button-scan loop opening `program_running`: each iteration touches
only slot `i`, so the loop is modelled pointwise — a pressed button on an
occupied slot (`mole_number != 0`) zeroes the slot and extinguishes its LED. -/
def scanButtons (buttons : Nat → Bool) (m : Machine) : Machine :=
  { m with
    mole_state := fun i =>
      if i < num_moles ∧ buttons i = true ∧ m.mole_state i ≠ 0 then 0 else m.mole_state i
    led := fun i =>
      if i < num_moles ∧ buttons i = true ∧ m.mole_state i ≠ 0 then false else m.led i }

/-- `void program_running()` — button scan, then the single guard
`if (curr_ms > event_heap->event_millis)`: the root's fire time is read
through the array pointer with NO emptiness check and compared strictly;
when it passes, ONE event is extracted and dispatched by `etype` (the
`event_mole_expired` case falls through into `num_event_types`/`default`,
whose body is only `break`). -/
def program_running (buttons : Nat → Bool) (now roll mole : Nat) (m : Machine) : Option Machine :=
  let m1 := scanButtons buttons m
  if (m1.heap.arr 0).event_millis < now then
    let e := heap_extract_min m1.heap
    let m2 := { m1 with heap := e.2 }
    match e.1.etype with
    | .event_mole_can_pop => handleMoleCanPop now roll mole m2
    | .event_mole_expired => some (handleMoleExpired m2)
  else some m1

/-- `void program_stopped()` — drives every mole LED HIGH (the placeholder
attract mode), then `maybeStartANewGame()`. -/
def program_stopped (buttons : Nat → Bool) (now : Nat) (m : Machine) : Option Machine :=
  maybeStartANewGame buttons now
    { m with led := fun i => if i < num_moles then true else m.led i }

/-- `void program_won() { maybeStartANewGame(); }` -/
def program_won (buttons : Nat → Bool) (now : Nat) (m : Machine) : Option Machine :=
  maybeStartANewGame buttons now m

/-- `void program_lost() { maybeStartANewGame(); }` -/
def program_lost (buttons : Nat → Bool) (now : Nat) (m : Machine) : Option Machine :=
  maybeStartANewGame buttons now m

/-- `void loop()` — the `switch (state)` has no `break` after any of the
four handler cases (only the `default` case breaks), so control falls
through: entering with `state_stopped` runs all four handlers in order,
`state_running` runs the last three, and so on.  The dispatch is on the
value of `state` at entry; the handlers themselves may change `state`
mid-pass without affecting which further cases run. -/
def loopStep (buttons : Nat → Bool) (now roll mole : Nat) (m : Machine) : Option Machine :=
  match m.state with
  | .state_stopped =>
    program_stopped buttons now m >>= program_running buttons now roll mole >>=
      program_won buttons now >>= program_lost buttons now
  | .state_running =>
    program_running buttons now roll mole m >>= program_won buttons now >>=
      program_lost buttons now
  | .state_won => program_won buttons now m >>= program_lost buttons now
  | .state_lost => program_lost buttons now m

/-! ## Predicates and fixtures used by the theorems -/

/-- The min-heap property over the occupied slots: every contained
non-root element's fire time is at least its parent's. -/
def heapProp (h : Heap) : Prop :=
  ∀ j, j < h.size → 0 < j →
    (h.arr (heap_parent j)).event_millis ≤ (h.arr j).event_millis

instance (h : Heap) : Decidable (heapProp h) := by
  unfold heapProp; infer_instance

/-- The occupancy/LED coupling invariant of the spec: a slot's LED is
commanded on iff its `mole_number` is non-zero. -/
def ledCoupling (m : Machine) : Prop :=
  ∀ i, i < num_moles → (m.mole_state i ≠ 0 ↔ m.led i = true)

instance (m : Machine) : Decidable (ledCoupling m) := by
  unfold ledCoupling; infer_instance

/-- The event heap as it is at boot: zeroed array, size 0. -/
def bootHeap : Heap := { arr := fun _ => zeroEvent, size := 0 }

/-- A sample event with fire time 5. -/
def eventAt5 : Event :=
  { event_millis := 5, etype := .event_mole_expired, event_mole_number := 1 }

/-- A heap at full capacity (`count = MAX_HEAP_SIZE`). -/
def fullHeap : Heap := { arr := fun _ => zeroEvent, size := MAX_HEAP_SIZE }

/-- Button sampling with no button pressed. -/
def noButtons : Nat → Bool := fun _ => false

/-- Button sampling with every button pressed. -/
def pressAll : Nat → Bool := fun _ => true

/-- A due `MoleExpired` event carrying token 7. -/
def expiredAt10 : Event :=
  { event_millis := 10, etype := .event_mole_expired, event_mole_number := 7 }

/-- A second due `MoleExpired` event carrying token 8. -/
def expiredAt20 : Event :=
  { event_millis := 20, etype := .event_mole_expired, event_mole_number := 8 }

/-- A Running machine whose queue holds two events, both already due at
time 100. -/
def dueTwoMachine : Machine :=
  { initialMachine with
    state := .state_running
    heap := { arr := fun j => if j = 0 then expiredAt10 else if j = 1 then expiredAt20 else zeroEvent
              size := 2 } }

/-- A Running machine holding one due `MoleExpired` event whose slot has
already been vacated (every `mole_state[i].mole_number` is 0). -/
def vacatedExpiryMachine : Machine :=
  { initialMachine with
    state := .state_running
    heap := { arr := fun j => if j = 0 then expiredAt10 else zeroEvent, size := 1 } }

/-- A Stopped machine part-way through a session whose generation counter
has advanced to 5. -/
def counterFiveMachine : Machine := { initialMachine with next_mole_number := 5 }

/-- A Running machine whose event queue has drained to empty (as happens
after a `MolePop` dispatch whose probability roll failed). -/
def runningEmptyMachine : Machine := { initialMachine with state := .state_running }

/-! ## Shared helper lemmas -/

/-- `scanButtons` does not touch the event heap. -/
theorem scanButtons_heap (buttons : Nat → Bool) (m : Machine) :
    (scanButtons buttons m).heap = m.heap := rfl

/-- A successful `heap_insert` leaves the size at `(old + 1) % 256`. -/
theorem heap_insert_size (ev : Event) (h h' : Heap)
    (hins : heap_insert ev h = some h') : h'.size = (h.size + 1) % 256 := by
  simp only [heap_insert] at hins
  split at hins
  · exact absurd hins (by simp)
  · simp only [Option.some.injEq] at hins
    rw [← hins]

/-- A successful `handleMoleCanPop` either returns the machine unchanged
(failed roll) or grows the queue by two (wrapped) increments. -/
theorem handleMoleCanPop_size (now roll mole : Nat) (m m' : Machine)
    (h : handleMoleCanPop now roll mole m = some m') :
    m'.heap.size = m.heap.size ∨ m'.heap.size = ((m.heap.size + 1) % 256 + 1) % 256 := by
  simp only [handleMoleCanPop] at h
  split at h
  · simp only [Option.some.injEq] at h
    left; rw [← h]
  · split at h
    · exact absurd h (by simp)
    · split at h
      · exact absurd h (by simp)
      · rename_i _ h2v heq2 _ h3v heq3
        simp only [Option.some.injEq] at h
        right
        have e2 := heap_insert_size _ _ _ heq2
        have e3 := heap_insert_size _ _ _ heq3
        rw [← h]
        show h3v.size = _
        rw [e3, e2]

/-- One unfolding step of the sift-up loop at the fuel 256 used by `heap_insert`. -/
theorem siftLoop_256 (i parent : Nat) (arr : Nat → Event) (ev : Event) :
    siftLoop 256 i parent arr ev =
      if 0 < i ∧ ev.event_millis < (arr parent).event_millis then
        siftLoop 255 parent parent (fun j => if j = i then arr parent else arr j) ev
      else some (i, arr) := rfl

/-- One further unfolding step of the sift-up loop. -/
theorem siftLoop_255 (i parent : Nat) (arr : Nat → Event) (ev : Event) :
    siftLoop 255 i parent arr ev =
      if 0 < i ∧ ev.event_millis < (arr parent).event_millis then
        siftLoop 254 parent parent (fun j => if j = i then arr parent else arr j) ev
      else some (i, arr) := rfl

/-- `heap_insert` into an empty heap: the sift starts at index 1 (one past
the single newly occupied slot).  If the new event's fire time is below
the stale slot-0 entry's, one swap step puts it at index 0; otherwise it
is stored at index 1, outside the occupied region `{0}`. -/
theorem heap_insert_from_empty (ev : Event) (h : Heap) (h0 : h.size = 0) :
    heap_insert ev h =
      some (if ev.event_millis < (h.arr 0).event_millis
        then { arr := fun j => if j = 0 then ev else if j = 1 then h.arr 0 else h.arr j, size := 1 }
        else { arr := fun j => if j = 1 then ev else h.arr j, size := 1 }) := by
  simp only [heap_insert, h0]
  norm_num [heap_parent]
  rw [siftLoop_256]
  by_cases hc : ev.event_millis < (h.arr 0).event_millis
  · rw [if_pos ⟨Nat.one_pos, hc⟩, siftLoop_255, if_neg (by simp), if_pos hc]
  · rw [if_neg (fun hand => hc hand.2), if_neg hc]

/-- A successful `startANewGame` puts the machine in `state_running`. -/
theorem startANewGame_sets_running (now : Nat) (m m' : Machine)
    (h : startANewGame now m = some m') : m'.state = .state_running := by
  simp only [startANewGame] at h
  split at h
  · exact absurd h (by simp)
  · simp only [Option.some.injEq] at h
    rw [← h]

/-! ## Claim theorems -/

/-- C1: Whenever a `MolePop` event is dispatched and the probability roll
fails (`random(100) >= mole_pop_prob`), `handleMoleCanPop` returns at
once and leaves the machine — in particular the event queue — completely
unchanged: NO re-arm `MolePop` event at `now + delay_time` is inserted,
contrary to the claim that one is always inserted.  The dispatched
`MolePop` therefore leaves the queue with no pending re-arm and the game
stalls. -/
theorem handleMoleCanPop_failed_roll_no_rearm (now roll mole : Nat) (m : Machine)
    (hroll : mole_pop_prob ≤ roll) :
    handleMoleCanPop now roll mole m = some m := by
  simp only [handleMoleCanPop, if_pos hroll]

/-- Witness for `handleMoleCanPop_failed_roll_no_rearm` at `roll = 80`
(a failed roll, since `mole_pop_prob = 80`): the queue of size 1 stays
size 1 and gains no event. -/
theorem handleMoleCanPop_failed_roll_no_rearm_witness :
    mole_pop_prob ≤ 80 ∧ handleMoleCanPop 1000 80 0 vacatedExpiryMachine = some vacatedExpiryMachine :=
  ⟨by decide, handleMoleCanPop_failed_roll_no_rearm 1000 80 0 vacatedExpiryMachine (by decide)⟩

/-- C2: refuted on the code.  Inserting an event into the empty boot-state
heap (which trivially satisfies the heap property, with `count = 0 <
capacity`) leaves the new event OUTSIDE the occupied region: because
`heap_insert` increments `event_heap_size` before computing the start
index of its sift-up, the sift starts at index `size` (one past the last
occupied slot), and when the stale slot-0 fire time is not larger than
the new event's the new event is stored at index 1 while the occupied
region is `{0}`, which still holds the stale zero event.  The inserted
event is thus not among the contained elements. -/
theorem heap_insert_drops_new_event :
    (heap_insert eventAt5 bootHeap).map Heap.size = some 1 ∧
    (heap_insert eventAt5 bootHeap).map (fun h => h.arr 0) = some zeroEvent ∧
    zeroEvent ≠ eventAt5 :=
  ⟨rfl, rfl, by decide⟩

/-- C3: refuted on the code.  `heap_insert` performs no capacity check at
all: inserting into a heap whose count already equals
`MAX_HEAP_SIZE = 20` increments the count to 21 (and stores the event at
index 21, past the end of the 20-element array — undefined behavior in
the C source).  There is no `QueueFull` error path, and the queue's count
does exceed the capacity. -/
theorem heap_insert_overflows_capacity :
    (heap_insert eventAt5 fullHeap).map Heap.size = some (MAX_HEAP_SIZE + 1) ∧
    fullHeap.size = MAX_HEAP_SIZE :=
  ⟨rfl, rfl⟩

/-- C5: refuted on the code at `N = 1`.  Insert a single event with fire
time 5 into the empty boot-state queue; `extract_min` then returns the
stale zero-initialised slot-0 event (fire time 0), not the inserted
event, because the insert left the new event at index 1, outside the
occupied region.  The extraction sequence is not the inserted events in
non-decreasing fire-time order — it does not consist of the inserted
events at all. -/
theorem heap_extract_returns_stale_event :
    (heap_insert eventAt5 bootHeap).map (fun h => (heap_extract_min h).1) = some zeroEvent ∧
    zeroEvent ≠ eventAt5 :=
  ⟨rfl, by decide⟩

/-- C9: refuted on the code.  In a reachable Running state with an empty
event queue (reached e.g. when the single pending `MolePop` is dispatched
and its probability roll fails, so nothing is re-inserted),
`program_running` compares the current time against the stale root slot
with no emptiness check, calls `heap_extract_min` on the empty queue, and
the `uint8_t` count underflows from 0 to 255. -/
theorem program_running_extracts_from_empty :
    runningEmptyMachine.heap.size = 0 ∧
    (program_running noButtons 100 99 0 runningEmptyMachine).map (fun m => m.heap.size) =
      some 255 :=
  ⟨rfl, rfl⟩

/-- C4 counterexample: a Running machine whose queue holds two events both
due at `now = 100` (fire times 10 and 20).  After the tick exactly one of
them has been dispatched: the queue still holds one event, and that
remaining event is itself due (`fire_time = 20 ≤ 100`), so not every due
event was extracted and handled in the tick. -/
theorem program_running_leaves_due_event :
    dueTwoMachine.heap.size = 2 ∧
    (program_running noButtons 100 0 0 dueTwoMachine).map
        (fun m => (m.heap.size, (m.heap.arr 0).event_millis)) = some (1, 20) ∧
    (20 : Nat) ≤ 100 :=
  ⟨rfl, rfl, by decide⟩

/-- C6 counterexample: starting a new game from a Stopped machine whose
generation counter has advanced to 5 leaves the counter at 5 —
`startANewGame` never touches `next_mole_number`, so the counter does not
equal 1 at the start of the new game. -/
theorem startANewGame_keeps_counter :
    counterFiveMachine.next_mole_number = 5 ∧
    (startANewGame 1000 counterFiveMachine).map Machine.next_mole_number = some 5 ∧
    (5 : Nat) ≠ 1 :=
  ⟨rfl, rfl, by decide⟩

/-- C8 counterexample: one `program_stopped` tick from the boot state
(all slots empty, all LEDs off) commands every mole LED on while every
`occupant_token` stays 0, so the occupancy/LED coupling invariant is
violated while Stopped. -/
theorem program_stopped_breaks_coupling :
    ∃ m', program_stopped noButtons 0 initialMachine = some m' ∧
      m'.mole_state 0 = 0 ∧ m'.led 0 = true ∧ ¬ ledCoupling m' := by
  refine ⟨_, rfl, rfl, rfl, fun hc => ?_⟩
  exact (hc 0 (by norm_num [num_moles])).mpr rfl rfl

/-- C6 (amended): on every Stopped-to-Running transition, `startANewGame`
clears the event queue and inserts one `MolePop` event with fire time
`now + delay_time` (the count becomes 1; because of the insert's
off-by-one the event is stored at index 0 or at index 1), resets every
mole slot to empty with its LED off, and sets the state to Running — but
it does NOT reset the generation counter, which keeps its prior value
(`next_mole_number` is initialised to 1 only once, at boot). -/
theorem startANewGame_entry_action (now : Nat) (m : Machine) :
    ∃ m', startANewGame now m = some m' ∧
      m'.state = .state_running ∧
      m'.heap.size = 1 ∧
      (m'.heap.arr 0 = makeMoleCanPopEvent now ∨ m'.heap.arr 1 = makeMoleCanPopEvent now) ∧
      (∀ i, i < num_moles → m'.mole_state i = 0 ∧ m'.led i = false) ∧
      m'.next_mole_number = m.next_mole_number := by
  simp only [startANewGame]
  rw [heap_insert_from_empty _ _ rfl]
  by_cases hc : (makeMoleCanPopEvent now).event_millis < ((heap_clear m.heap).arr 0).event_millis
  · rw [if_pos hc]
    exact ⟨_, rfl, rfl, rfl, Or.inl rfl, fun i hi => ⟨if_pos hi, if_pos hi⟩, rfl⟩
  · rw [if_neg hc]
    exact ⟨_, rfl, rfl, rfl, Or.inr rfl, fun i hi => ⟨if_pos hi, if_pos hi⟩, rfl⟩

/-- C7: whenever the due root event is a `MoleExpired`, `program_running`
transitions the machine to `state_lost` unconditionally — the statement
places no hypothesis whatsoever on the mole slots, so the transition
happens even when the slot carrying the event's token was already
vacated. -/
theorem moleExpired_transitions_to_lost (buttons : Nat → Bool) (now roll mole : Nat)
    (m : Machine) (htype : (m.heap.arr 0).etype = .event_mole_expired)
    (hdue : (m.heap.arr 0).event_millis < now) :
    ∃ m', program_running buttons now roll mole m = some m' ∧ m'.state = .state_lost := by
  simp only [program_running]
  have hdue' : ((scanButtons buttons m).heap.arr 0).event_millis < now := hdue
  rw [if_pos hdue']
  have htype' : (heap_extract_min (scanButtons buttons m).heap).1.etype =
      EventType.event_mole_expired := htype
  rw [htype']
  exact ⟨_, rfl, rfl⟩

/-- Witness for `moleExpired_transitions_to_lost`: a Running machine whose
only pending event is a due token-7 `MoleExpired` while every slot is
already vacated (all `mole_number`s are 0) still ends the tick in
`state_lost`. -/
theorem moleExpired_transitions_to_lost_witness :
    (vacatedExpiryMachine.heap.arr 0).etype = .event_mole_expired ∧
    (vacatedExpiryMachine.heap.arr 0).event_millis < 100 ∧
    ∃ m', program_running noButtons 100 0 0 vacatedExpiryMachine = some m' ∧
      m'.state = .state_lost :=
  ⟨rfl, by decide,
    moleExpired_transitions_to_lost noButtons 100 0 0 vacatedExpiryMachine rfl (by decide)⟩

/-- The extraction decrements the (wrapped) `uint8_t` count. -/
theorem heap_extract_min_size (h : Heap) :
    (heap_extract_min h).2.size = (h.size + 255) % 256 := rfl

/-- C4 (amended): the Running-state dispatch is a single
`if (curr_ms > event_heap->event_millis)` — strict comparison against the
root slot, checked without regard to emptiness — not a drain loop: per
tick at most one event is extracted (the queue count never drops by more
than one), and when the current time is not strictly greater than the
root's fire time (including equality) no event is processed at all, the
tick amounting to the button scan alone. -/
theorem program_running_at_most_one_extraction (buttons : Nat → Bool) (now roll mole : Nat)
    (m m' : Machine) (h1 : 1 ≤ m.heap.size) (h2 : m.heap.size ≤ MAX_HEAP_SIZE)
    (hrun : program_running buttons now roll mole m = some m') :
    m.heap.size - 1 ≤ m'.heap.size ∧
    (now ≤ (m.heap.arr 0).event_millis → m' = scanButtons buttons m) := by
  have hMAX : MAX_HEAP_SIZE = 20 := rfl
  simp only [program_running] at hrun
  by_cases hfire : ((scanButtons buttons m).heap.arr 0).event_millis < now
  · rw [if_pos hfire] at hrun
    have hs : (heap_extract_min (scanButtons buttons m).heap).2.size = m.heap.size - 1 := by
      rw [heap_extract_min_size, scanButtons_heap]
      omega
    constructor
    · split at hrun
      · rcases handleMoleCanPop_size _ _ _ _ _ hrun with he | he <;>
          simp only [he, hs] <;> omega
      · simp only [Option.some.injEq] at hrun
        rw [← hrun]
        simp only [handleMoleExpired, hs]
        omega
    · intro hle
      exact absurd hfire (Nat.not_lt.mpr hle)
  · rw [if_neg hfire] at hrun
    simp only [Option.some.injEq] at hrun
    rw [← hrun]
    exact ⟨Nat.le_of_eq (congrArg (fun h => h.size - 1) (scanButtons_heap buttons m)) |>.trans
      (Nat.sub_le _ _), fun _ => rfl⟩

/-- Witness for `program_running_at_most_one_extraction` on the two-event
machine at time 5 (before either fire time): nothing is extracted and the
tick is the button scan alone. -/
theorem program_running_at_most_one_extraction_witness :
    1 ≤ dueTwoMachine.heap.size ∧ dueTwoMachine.heap.size ≤ MAX_HEAP_SIZE ∧
      (dueTwoMachine.heap.size - 1 ≤ (scanButtons noButtons dueTwoMachine).heap.size ∧
        (5 ≤ (dueTwoMachine.heap.arr 0).event_millis →
          scanButtons noButtons dueTwoMachine = scanButtons noButtons dueTwoMachine)) :=
  ⟨by decide, by decide,
    program_running_at_most_one_extraction noButtons 5 0 0 dueTwoMachine
      (scanButtons noButtons dueTwoMachine) (by decide) (by decide) rfl⟩

/-- C8 (amended): the occupancy/LED coupling (`occupant_token != 0` iff
the LED is commanded on) does NOT hold across all states — `program_stopped`
commands every LED on while all tokens stay 0 (see
`program_stopped_breaks_coupling`).  What does hold: the coupling is
established by the Stopped-to-Running entry action and preserved by every
Running-state slot operation — the button scan, the `MoleExpired` handler,
and the `MolePop` handler provided the generation counter is non-zero. -/
theorem led_coupling_in_running_ops :
    (∀ now m m', startANewGame now m = some m' → ledCoupling m') ∧
    (∀ buttons m, ledCoupling m → ledCoupling (scanButtons buttons m)) ∧
    (∀ m, ledCoupling m → ledCoupling (handleMoleExpired m)) ∧
    (∀ now roll mole m m', m.next_mole_number ≠ 0 → ledCoupling m →
      handleMoleCanPop now roll mole m = some m' → ledCoupling m') := by
  refine ⟨?_, ?_, ?_, ?_⟩
  · intro now m m' h
    simp only [startANewGame] at h
    split at h
    · exact absurd h (by simp)
    · simp only [Option.some.injEq] at h
      intro i hi
      rw [← h]
      simp [if_pos hi]
  · intro buttons m hc i hi
    simp only [scanButtons]
    by_cases hcond : i < num_moles ∧ buttons i = true ∧ m.mole_state i ≠ 0
    · simp [if_pos hcond]
    · simp only [if_neg hcond]
      exact hc i hi
  · exact fun m hc i hi => hc i hi
  · intro now roll mole m m' hnz hc h
    simp only [handleMoleCanPop] at h
    split at h
    · simp only [Option.some.injEq] at h
      rw [← h]; exact hc
    · split at h
      · exact absurd h (by simp)
      · split at h
        · exact absurd h (by simp)
        · simp only [Option.some.injEq] at h
          intro i hi
          rw [← h]
          by_cases him : i = mole
          · simp [him, hnz]
          · simp only [if_neg him]
            exact hc i hi

/-- Witness for `led_coupling_in_running_ops`: the button scan applied to
the boot machine (which satisfies the coupling: all tokens 0, all LEDs
off) yields a machine still satisfying it. -/
theorem led_coupling_in_running_ops_witness :
    ledCoupling (scanButtons noButtons initialMachine) :=
  led_coupling_in_running_ops.2.1 noButtons initialMachine (by decide)

/-- C10: `loop()`'s `switch` has no `break` between its four cases, so an
invocation entered with `state == state_stopped` executes
`program_stopped` and then falls through into `program_running`,
`program_won` and `program_lost` within the same invocation; moreover a
button press while Stopped makes `program_stopped` start a new game and
leave the machine in `state_running`, so the first Running tick — with
its mole-vacating button scan — runs inside the very same `loop()` call
as the transition. -/
theorem loop_runs_all_later_states_from_stopped (buttons : Nat → Bool) (now roll mole : Nat)
    (m : Machine) (hstop : m.state = .state_stopped) :
    loopStep buttons now roll mole m =
      (program_stopped buttons now m >>= program_running buttons now roll mole >>=
        program_won buttons now >>= program_lost buttons now) ∧
    (anyButtonPressed buttons = true →
      ∀ m1, program_stopped buttons now m = some m1 → m1.state = .state_running) := by
  constructor
  · simp only [loopStep, hstop]
  · intro hpress m1 h1
    simp only [program_stopped, maybeStartANewGame, hpress, if_true] at h1
    exact startANewGame_sets_running _ _ _ h1

/-- Witness for `loop_runs_all_later_states_from_stopped`: the boot
machine with every button pressed. -/
theorem loop_runs_all_later_states_from_stopped_witness :
    (loopStep pressAll 0 0 0 initialMachine =
      (program_stopped pressAll 0 initialMachine >>= program_running pressAll 0 0 0 >>=
        program_won pressAll 0 >>= program_lost pressAll 0)) ∧
    (anyButtonPressed pressAll = true →
      ∀ m1, program_stopped pressAll 0 initialMachine = some m1 →
        m1.state = .state_running) :=
  loop_runs_all_later_states_from_stopped pressAll 0 0 0 initialMachine rfl

end Whackamole
